import Mathlib

/-!
Verification development for `lib_bloat.py`, a tool that attributes the size
of symbols in a linked wasm binary back to the object files and archives that
define them.  The Python source is embedded shallowly: strings are Lean
strings manipulated through character lists, dictionaries are association
lists with in-place update, sets are duplicate-free lists, exceptions are
`Except`, and printing is modelled by a list of output events carrying the
printed data.  Exact fractional values (Python float division) are modelled
by unreduced numerator/denominator pairs.
-/

/-- Model of Python `str.startswith`: list-level check on the characters. -/
def pyStartswith (s p : String) : Bool :=
  List.isPrefixOf p.toList s.toList

/-- Model of Python `str.endswith`. -/
def pyEndswith (s p : String) : Bool :=
  List.isSuffixOf p.toList s.toList

/-- Model of Python `str.removeprefix`: drop `p` from the front of `s` when it
is a prefix, otherwise return `s` unchanged. -/
def pyStripPre (s p : String) : String :=
  if List.isPrefixOf p.toList s.toList then String.mk (s.toList.drop p.toList.length) else s

/-- Model of Python `str.lower` (per-character lowering). -/
def pyLower (s : String) : String :=
  String.mk (s.toList.map Char.toLower)

/-- Split a character list at every occurrence of `c`; empty pieces are kept,
matching Python `str.split(sep)` with an explicit one-character separator. -/
def splitChar (c : Char) : List Char → List (List Char)
  | [] => [[]]
  | a :: rest =>
    match splitChar c rest with
    | [] => [[]]
    | g :: gs => if a == c then [] :: g :: gs else (a :: g) :: gs

/-- Model of Python `s.split(c)` for a one-character separator `c`. -/
def pySplitChar (s : String) (c : Char) : List String :=
  (splitChar c s.toList).map String.mk

/-- Accumulating worker for whitespace splitting. -/
def wsSplitAux : List Char → List Char → List (List Char)
  | [], acc => if acc.isEmpty then [] else [acc.reverse]
  | a :: rest, acc =>
    if a.isWhitespace then
      if acc.isEmpty then wsSplitAux rest [] else acc.reverse :: wsSplitAux rest []
    else wsSplitAux rest (a :: acc)

/-- Model of Python `str.split()` with no argument: split on whitespace runs,
dropping empty pieces. -/
def pySplitWs (s : String) : List String :=
  (wsSplitAux s.toList []).map String.mk

/-- Digit-string to number; `none` when empty or a non-digit appears. -/
def digitsToNat (l : List Char) : Option Nat :=
  if l.isEmpty then none
  else
    l.foldl
      (fun acc c =>
        match acc with
        | none => none
        | some n => if c.isDigit then some (n * 10 + (c.toNat - 48)) else none)
      (some 0)

/-- Model of Python `int(s)` on decimal literals with an optional leading
minus sign; `none` models the `ValueError` raised on anything else. -/
def pyInt (s : String) : Option Int :=
  match s.toList with
  | [] => none
  | c :: rest =>
    if c == '-' then (digitsToNat rest).map (fun n => -(n : Int))
    else (digitsToNat (c :: rest)).map (fun n => (n : Int))

/-- Model of Python `pathlib.Path(s).name`: the last `/`-separated component. -/
def pathName (s : String) : String :=
  (pySplitChar s '/').getLastD ""

/-- Association-list dictionary update with Python `d[k] = v` semantics: the
first entry with key `k` is updated in place, otherwise the pair is appended. -/
def dictUpd {α : Type} (d : List (String × α)) (k : String) (v : α) : List (String × α) :=
  match d with
  | [] => [(k, v)]
  | e :: rest => if e.1 == k then (k, v) :: rest else e :: dictUpd rest k v

/-- Key membership in an association-list dictionary (`k in d` in Python). -/
def dictHasKey {α : Type} (d : List (String × α)) (k : String) : Bool :=
  d.any (fun e => e.1 == k)

/-- Set insertion (`s.add(n)` on a Python set): no effect when present. -/
def insertSet (s : List String) (n : String) : List String :=
  if s.contains n then s else s ++ [n]

/-- Exceptions that the modelled parts of the script can raise. -/
inductive Err where
  | indexError
  | zeroDivisionError
  | valueError
deriving DecidableEq

/-- Exact value of a Python float produced by one division: an unreduced
numerator/denominator pair standing for `num / den`. -/
structure PyFloat where
  num : Int
  den : Int
deriving DecidableEq

/-- Multiply a division result by an integer (Python `x * 100`). -/
def PyFloat.mulN (x : PyFloat) (k : Int) : PyFloat :=
  { num := x.num * k, den := x.den }

/-- Model of Python `a / b`: `ZeroDivisionError` when `b = 0`, otherwise the
exact quotient. -/
def pyDivFloat (a b : Int) : Except Err PyFloat :=
  if b == 0 then Except.error Err.zeroDivisionError else Except.ok { num := a, den := b }

/-- Skip condition of `GetSymSizes` (lib_bloat.py line 53): section rows, the
header row ending in `filesize`, the WASM header row, and empty lines. -/
def skipLine (line : String) : Bool :=
  pyStartswith line "[section" || pyEndswith line "filesize" ||
    pyStartswith line "[WASM Header" || line.length == 0

/-- One iteration of the `GetSymSizes` loop (lib_bloat.py lines 51-59): the
state is the `sym_sizes` dict together with `total_size`.  A non-skipped line
must split on commas into exactly `name, vmsize, filesize` and `filesize`
must parse as an integer; otherwise Python raises `ValueError`. -/
def symStep (acc : List (String × Int) × Int) (line : String) :
    Except Err (List (String × Int) × Int) :=
  if skipLine line then Except.ok acc
  else
    match pySplitChar line ',' with
    | [name, _vmsize, filesize] =>
      match pyInt filesize with
      | some v => Except.ok (dictUpd acc.1 name v, acc.2 + v)
      | none => Except.error Err.valueError
    | _ => Except.error Err.valueError

/-- Body of `GetSymSizes` (lib_bloat.py lines 49-62) on the list of lines of
the bloaty csv output: returns the `sym_sizes` dict and `total_size`. -/
def GetSymSizesLines (lines : List String) : Except Err (List (String × Int) × Int) :=
  lines.foldlM symStep ([], 0)

/-- The four classification structures built by `GetLibFunctions`
(lib_bloat.py lines 67-70): `func_names`, `weak_names`, `data_names`
(a dict mapping the symbol to the owning lib), and `local_data_names`. -/
structure Classification where
  funcs : List String
  weaks : List String
  datas : List (String × String)
  localDatas : List String

/-- One iteration of the inner loop of `GetLibFunctions` (lib_bloat.py lines
77-97): split the nm line into exactly three whitespace-separated tokens
(otherwise the `ValueError` is caught and the line is skipped), then classify
by the lowered type code: `t` strong function, `w` weak symbol, `d` data
symbol, where data names starting with `.L` are compiler-local. -/
def classifyLine (lib : String) (c : Classification) (line : String) : Classification :=
  match pySplitWs line with
  | [_addr, symtype, name] =>
    if pyLower symtype == "t" then { c with funcs := insertSet c.funcs name }
    else if pyLower symtype == "w" then { c with weaks := insertSet c.weaks name }
    else if pyLower symtype == "d" then
      if pyStartswith name ".L" then { c with localDatas := insertSet c.localDatas name }
      else { c with datas := dictUpd c.datas name lib }
    else c
  | _ => c

/-- Process one lib's nm output (the inner loop of `GetLibFunctions`), with
`nmEnv` giving the captured stdout of `llvm-nm` on each lib path. -/
def classifyLib (nmEnv : String → String) (c : Classification) (lib : String) : Classification :=
  (pySplitChar (nmEnv lib) '\n').foldl (classifyLine lib) c

/-- `GetLibFunctions` (lib_bloat.py lines 65-100): classify every lib of the
group into the four shared structures. -/
def GetLibFunctions (nmEnv : String → String) (libs : List String) : Classification :=
  libs.foldl (classifyLib nmEnv) { funcs := [], weaks := [], datas := [], localDatas := [] }

/-- The four running totals of the `GetLibSize` loop. -/
structure Totals where
  funcTotal : Int
  weakTotal : Int
  dataTotal : Int
  localTotal : Int
deriving DecidableEq

/-- The loop of `GetLibSize` (lib_bloat.py lines 111-121) over the symbol
table: strong functions counted first, otherwise weak; independently, data
sizes are attributed by the stripped `.rodata.`/`.data.` base name, falling
back to the local-data total when the base name starts with `.L`. -/
def libSizeLoop (c : Classification) : List (String × Int) → Totals
  | [] => { funcTotal := 0, weakTotal := 0, dataTotal := 0, localTotal := 0 }
  | (sym, size) :: rest =>
    let r := libSizeLoop c rest
    let r :=
      if c.funcs.contains sym then { r with funcTotal := r.funcTotal + size }
      else if c.weaks.contains sym then { r with weakTotal := r.weakTotal + size }
      else r
    if pyStartswith sym ".rodata" || pyStartswith sym ".data" then
      let stripped := pyStripPre (pyStripPre sym ".rodata.") ".data."
      if dictHasKey c.datas stripped then { r with dataTotal := r.dataTotal + size }
      else if pyStartswith stripped ".L" then { r with localTotal := r.localTotal + size }
      else r
    else r

/-- The `LibSize` namedtuple (lib_bloat.py line 103). -/
structure LibSize where
  name : String
  function : Int
  weak : Int
  data : Int
  localData : Int
deriving DecidableEq

/-- `GetLibSize` (lib_bloat.py lines 105-123): classify the group's libs and
run the totals loop over the symbol table. -/
def GetLibSize (nmEnv : String → String) (libs : List String)
    (symSizes : List (String × Int)) : LibSize :=
  let c := GetLibFunctions nmEnv libs
  let t := libSizeLoop c symSizes
  { name := if libs.length == 1 then pathName (libs.headD "") else "(aggregate)",
    function := t.funcTotal, weak := t.weakTotal, data := t.dataTotal,
    localData := t.localTotal }

/-- Output events of the script, carrying the data of each printed line
(formatting abstracted away). -/
inductive OutLine where
  | symCount (n : Nat) (wasm : String) (total : Int)
  | mergedSectionWarning (name : String) (size : Int)
  | dataCount (n : Nat) (size : Int)
  | funcHeader
  | funcRow (name : String) (fsize : Int) (fpct : PyFloat) (csize : Int) (cpct : PyFloat)
  | dataHeader
  | dataRow (name : String) (dsize : Int) (pct : PyFloat)
  | strongSumWarning (libsSum : Int) (dedup : Int)
  | strongTotal (size : Int) (total : Int) (pct : PyFloat)
  | strongWeakTotal (size : Int) (total : Int) (pct : PyFloat)
  | publicDataTotal (size : Int) (dataTotal : Int) (pct : PyFloat) (dpct : PyFloat)
  | localDataTotal (size : Int) (dataTotal : Int) (pct : PyFloat) (dpct : PyFloat)
deriving DecidableEq

/-- `GetDataSize` (lib_bloat.py lines 126-138): returns the merged-section
warnings it prints, `data_sym_count`, and `data_size`. -/
def GetDataSize : List (String × Int) → List OutLine × Nat × Int
  | [] => ([], 0, 0)
  | (name, size) :: rest =>
    let r := GetDataSize rest
    if name == ".data" || name == ".rodata" then
      (OutLine.mergedSectionWarning name size :: r.1, r.2.1, r.2.2)
    else if pyStartswith name ".data" || pyStartswith name ".rodata" ||
        pyStartswith name ".tdata" then
      (r.1, r.2.1 + 1, r.2.2 + size)
    else r

/-- The `Percent` closure of `main` (lib_bloat.py lines 156-157):
`s / linked_sym_size * 100`. -/
def Percent (linkedSymSize s : Int) : Except Err PyFloat :=
  (pyDivFloat s linkedSymSize).map (fun x => x.mulN 100)

/-- Stable insertion for a descending in-place Python sort. -/
def insertDesc (key : LibSize → Int) (x : LibSize) : List LibSize → List LibSize
  | [] => [x]
  | y :: ys => if key y ≤ key x then x :: y :: ys else y :: insertDesc key x ys

/-- Model of Python `list.sort(key=key, reverse=True)`: a stable descending
sort by `key`. -/
def sortDesc (key : LibSize → Int) : List LibSize → List LibSize
  | [] => []
  | x :: xs => insertDesc key x (sortDesc key xs)

/-- The function-table loop of `main` (lib_bloat.py lines 161-164): one row
per lib, each row computing two percentages against `linked_sym_size`. -/
def funcRows (linked : Int) : List LibSize → List OutLine × Option Err
  | [] => ([], none)
  | l :: rest =>
    match Percent linked l.function, Percent linked (l.function + l.weak) with
    | Except.ok p1, Except.ok p2 =>
      let r := funcRows linked rest
      (OutLine.funcRow l.name l.function p1 (l.function + l.weak) p2 :: r.1, r.2)
    | Except.error e, _ => ([], some e)
    | _, Except.error e => ([], some e)

/-- The data-table loop of `main` (lib_bloat.py lines 170-171): one row per
lib, dividing by `data_sym_size` directly. -/
def dataRows (dataSymSize : Int) : List LibSize → List OutLine × Option Err
  | [] => ([], none)
  | l :: rest =>
    match pyDivFloat l.data dataSymSize with
    | Except.ok q =>
      let r := dataRows dataSymSize rest
      (OutLine.dataRow l.name l.data (q.mulN 100) :: r.1, r.2)
    | Except.error e => ([], some e)

/-- Sequence two output-producing steps: the second runs only when the first
did not raise, and outputs accumulate in order. -/
def seqOut (x : List OutLine × Option Err) (f : Unit → List OutLine × Option Err) :
    List OutLine × Option Err :=
  match x.2 with
  | some e => (x.1, some e)
  | none => let y := f (); (x.1 ++ y.1, y.2)

/-- Everything `main` does after `GetSymSizes` returned (lib_bloat.py lines
145-197): the data-symbol summary, the two sorted tables, the
strong-sum-versus-deduplicated-total warning, and the four summary lines.
Output events accumulate until the first uncaught exception, if any. -/
def mainAfterLoad (nmEnv : String → String) (wasm : String) (libs : List String)
    (symSizes : List (String × Int)) (totalSize : Int) : List OutLine × Option Err :=
  let linkedSymSize := (symSizes.map (fun e => e.2)).sum
  let gd := GetDataSize symSizes
  let dataSymSize := gd.2.2
  let sizes := sortDesc (fun l => l.function + l.weak)
    (libs.map (fun l => GetLibSize nmEnv [l] symSizes))
  seqOut (OutLine.symCount symSizes.length wasm totalSize :: gd.1 ++
      [OutLine.dataCount gd.2.1 dataSymSize, OutLine.funcHeader], none) fun _ =>
  seqOut (funcRows linkedSymSize sizes) fun _ =>
  let sizesD := sortDesc (fun l => l.data) sizes
  seqOut ([OutLine.dataHeader], none) fun _ =>
  seqOut (dataRows dataSymSize sizesD) fun _ =>
  let libsSizeSum := (sizesD.map (fun l => l.function)).sum
  let deduped := GetLibSize nmEnv libs symSizes
  seqOut ((if libsSizeSum != deduped.function then
      [OutLine.strongSumWarning libsSizeSum deduped.function] else []), none) fun _ =>
  seqOut (match Percent linkedSymSize deduped.function with
    | Except.error e => ([], some e)
    | Except.ok p => ([OutLine.strongTotal deduped.function linkedSymSize p], none)) fun _ =>
  let dedupedWeakSize := deduped.function + deduped.weak
  seqOut (match Percent linkedSymSize dedupedWeakSize with
    | Except.error e => ([], some e)
    | Except.ok p => ([OutLine.strongWeakTotal dedupedWeakSize linkedSymSize p], none)) fun _ =>
  let libsDataSize := (sizesD.map (fun l => l.data)).sum
  seqOut (match Percent linkedSymSize libsDataSize, pyDivFloat libsDataSize dataSymSize with
    | Except.ok p, Except.ok q =>
      ([OutLine.publicDataTotal libsDataSize dataSymSize p (q.mulN 100)], none)
    | Except.error e, _ => ([], some e)
    | _, Except.error e => ([], some e)) fun _ =>
  match sizesD.head? with
  | none => ([], some Err.indexError)
  | some s0 =>
    seqOut (match Percent linkedSymSize s0.localData, pyDivFloat s0.localData dataSymSize with
      | Except.ok p, Except.ok q =>
        ([OutLine.localDataTotal s0.localData dataSymSize p (q.mulN 100)], none)
      | Except.error e, _ => ([], some e)
      | _, Except.error e => ([], some e)) fun _ => ([], none)

/-- `main` (lib_bloat.py lines 140-197) on the positional arguments, with
`bloatyEnv` giving the bloaty csv output for the linked wasm and `nmEnv` the
llvm-nm output per lib.  With no arguments, `args[-1]` raises `IndexError`
before printing anything; an exception inside `GetSymSizes` propagates before
its summary line is printed. -/
def mainRun (bloatyEnv nmEnv : String → String) (args : List String) :
    List OutLine × Option Err :=
  match args.getLast? with
  | none => ([], some Err.indexError)
  | some wasm =>
    match GetSymSizesLines (pySplitChar (bloatyEnv wasm) '\n') with
    | Except.error e => ([], some e)
    | Except.ok st => mainAfterLoad nmEnv wasm args.dropLast st.1 st.2

/-- Discriminator: is this event the strong-sum disagreement warning of
lib_bloat.py line 187? -/
def OutLine.isStrongSumWarning : OutLine → Bool
  | OutLine.strongSumWarning _ _ => true
  | _ => false

/-- Discriminator for the summary line of lib_bloat.py line 193. -/
def OutLine.isStrongTotal : OutLine → Bool
  | OutLine.strongTotal _ _ _ => true
  | _ => false

/-- Discriminator for the summary line of lib_bloat.py line 194. -/
def OutLine.isStrongWeakTotal : OutLine → Bool
  | OutLine.strongWeakTotal _ _ _ => true
  | _ => false

/-- Discriminator for the summary line of lib_bloat.py line 195. -/
def OutLine.isPublicDataTotal : OutLine → Bool
  | OutLine.publicDataTotal _ _ _ _ => true
  | _ => false

/-- Discriminator for the summary line of lib_bloat.py line 197. -/
def OutLine.isLocalDataTotal : OutLine → Bool
  | OutLine.localDataTotal _ _ _ _ => true
  | _ => false

deriving instance DecidableEq for Except

/-- Transitivity of the boolean list-prefix check. -/
theorem isPrefixOf_trans {p q l : List Char} (h1 : p.isPrefixOf q = true)
    (h2 : q.isPrefixOf l = true) : p.isPrefixOf l = true := by
  induction p generalizing q l with
  | nil => simp [List.isPrefixOf]
  | cons a p ih =>
    cases q with
    | nil => simp [List.isPrefixOf] at h1
    | cons b q =>
      cases l with
      | nil => simp [List.isPrefixOf] at h2
      | cons c l =>
        simp only [List.isPrefixOf, Bool.and_eq_true, beq_iff_eq] at h1 h2 ⊢
        exact ⟨h1.1.trans h2.1, ih h1.2 h2.2⟩

/-- Two prefixes of the same list are comparable. -/
theorem isPrefixOf_comparable {p q l : List Char} (h1 : p.isPrefixOf l = true)
    (h2 : q.isPrefixOf l = true) : p.isPrefixOf q = true ∨ q.isPrefixOf p = true := by
  induction l generalizing p q with
  | nil =>
    cases p with
    | nil => left; simp [List.isPrefixOf]
    | cons a p => simp [List.isPrefixOf] at h1
  | cons c l ih =>
    cases p with
    | nil => left; simp [List.isPrefixOf]
    | cons a p =>
      cases q with
      | nil => right; simp [List.isPrefixOf]
      | cons b q =>
        simp only [List.isPrefixOf, Bool.and_eq_true, beq_iff_eq] at h1 h2 ⊢
        rcases ih h1.2 h2.2 with h | h
        · exact Or.inl ⟨h1.1.trans h2.1.symm, h⟩
        · exact Or.inr ⟨h2.1.trans h1.1.symm, h⟩

/-- A string that starts with `q` also starts with any prefix `p` of `q`. -/
theorem pyStartswith_of_pre {s p q : String} (h1 : List.isPrefixOf p.toList q.toList = true)
    (h2 : pyStartswith s q = true) : pyStartswith s p = true := by
  unfold pyStartswith at *
  exact isPrefixOf_trans h1 h2

/-- A string cannot start with two incomparable prefixes. -/
theorem pyStartswith_clash {s p q : String}
    (hpq : List.isPrefixOf p.toList q.toList = false)
    (hqp : List.isPrefixOf q.toList p.toList = false)
    (h : pyStartswith s p = true) : pyStartswith s q = false := by
  unfold pyStartswith at *
  cases hq : List.isPrefixOf q.toList s.toList
  · rfl
  · rcases isPrefixOf_comparable h hq with h' | h'
    · rw [h'] at hpq; cases hpq
    · rw [h'] at hqp; cases hqp

/-- `removeprefix` is the identity when the prefix is absent. -/
theorem pyStripPre_of_not_pre {s p : String} (h : pyStartswith s p = false) :
    pyStripPre s p = s := by
  unfold pyStartswith at h
  have hne : ¬ (List.isPrefixOf p.toList s.toList = true) := by
    rw [h]; exact Bool.false_ne_true
  unfold pyStripPre
  rw [if_neg hne]

/-- Membership after a set insertion. -/
theorem insertSet_mem {s : List String} {m n : String} :
    n ∈ insertSet s m ↔ n ∈ s ∨ n = m := by
  unfold insertSet
  by_cases h : s.contains m
  · rw [if_pos h]
    have hm : m ∈ s := List.elem_iff.mp h
    constructor
    · exact fun hn => Or.inl hn
    · rintro (hn | rfl)
      · exact hn
      · exact hm
  · rw [if_neg h]
    simp [List.mem_append]

/-- Membership in an updated dictionary comes from the old dictionary or is
the updated key. -/
theorem dictUpd_mem {α : Type} {d : List (String × α)} {k0 k : String} {v0 : α} {v : α}
    (h : (k, v) ∈ dictUpd d k0 v0) : (k, v) ∈ d ∨ k = k0 := by
  induction d with
  | nil =>
    simp [dictUpd] at h
    exact Or.inr h.1
  | cons e rest ih =>
    unfold dictUpd at h
    by_cases he : (e.1 == k0) = true
    · rw [if_pos he] at h
      rcases List.mem_cons.mp h with h | h
      · exact Or.inr (congrArg Prod.fst h)
      · exact Or.inl (List.mem_cons_of_mem e h)
    · rw [if_neg he] at h
      rcases List.mem_cons.mp h with h | h
      · exact Or.inl (h ▸ List.mem_cons_self e rest)
      · rcases ih h with h' | h'
        · exact Or.inl (List.mem_cons_of_mem e h')
        · exact Or.inr h'

/-- The boolean key-membership check agrees with entry membership. -/
theorem dictHasKey_iff {α : Type} {d : List (String × α)} {k : String} :
    dictHasKey d k = true ↔ ∃ v, (k, v) ∈ d := by
  unfold dictHasKey
  rw [List.any_eq_true]
  constructor
  · rintro ⟨e, he, hk⟩
    exact ⟨e.2, by rwa [← eq_of_beq hk]⟩
  · rintro ⟨v, hv⟩
    exact ⟨(k, v), hv, by simp⟩

/-- Invariant preservation along a left fold. -/
theorem foldl_inv {β σ : Type} (P : σ → Prop) (f : σ → β → σ) (l : List β) (s : σ)
    (h0 : P s) (hstep : ∀ s b, P s → P (f s b)) : P (l.foldl f s) := by
  induction l generalizing s with
  | nil => exact h0
  | cons b rest ih => exact ih (f s b) (hstep s b h0)

/-- Effect of one classified nm line on the strong-function set: the name is
added exactly when the line has three tokens and lowered type code `t`. -/
theorem classifyLine_funcs_mem {lib : String} {c : Classification} {line n : String} :
    n ∈ (classifyLine lib c line).funcs ↔
      n ∈ c.funcs ∨ ∃ a t, pySplitWs line = [a, t, n] ∧ pyLower t = "t" := by
  rcases hsp : pySplitWs line with _ | ⟨x, _ | ⟨y, _ | ⟨z, _ | ⟨w, rest⟩⟩⟩⟩ <;>
    simp only [classifyLine, hsp]
  · simp
  · simp
  · simp
  · split_ifs with h1 h2 h3 h4 <;>
      simp_all [insertSet_mem, beq_iff_eq, beq_eq_false_iff_ne] <;> tauto
  · simp

/-- Effect of one classified nm line on the weak-symbol set. -/
theorem classifyLine_weaks_mem {lib : String} {c : Classification} {line n : String} :
    n ∈ (classifyLine lib c line).weaks ↔
      n ∈ c.weaks ∨ ∃ a t, pySplitWs line = [a, t, n] ∧ pyLower t = "w" := by
  rcases hsp : pySplitWs line with _ | ⟨x, _ | ⟨y, _ | ⟨z, _ | ⟨w, rest⟩⟩⟩⟩ <;>
    simp only [classifyLine, hsp]
  · simp
  · simp
  · simp
  · split_ifs with h1 h2 h3 h4 <;>
      simp_all [insertSet_mem, beq_iff_eq, beq_eq_false_iff_ne] <;> tauto
  · simp

/-- Strong-function membership after folding a whole nm listing. -/
theorem foldl_lines_funcs_mem {lib : String} (lines : List String) (c : Classification)
    (n : String) :
    n ∈ (lines.foldl (classifyLine lib) c).funcs ↔
      n ∈ c.funcs ∨ ∃ line ∈ lines, ∃ a t, pySplitWs line = [a, t, n] ∧ pyLower t = "t" := by
  induction lines generalizing c with
  | nil => simp
  | cons L rest ih =>
    rw [List.foldl_cons, ih, classifyLine_funcs_mem]
    simp only [List.mem_cons]
    constructor
    · rintro ((hc | hL) | hr)
      · exact Or.inl hc
      · exact Or.inr ⟨L, Or.inl rfl, hL⟩
      · obtain ⟨l0, hl0, hx⟩ := hr
        exact Or.inr ⟨l0, Or.inr hl0, hx⟩
    · rintro (hc | ⟨l0, (rfl | hl0), hx⟩)
      · exact Or.inl (Or.inl hc)
      · exact Or.inl (Or.inr hx)
      · exact Or.inr ⟨l0, hl0, hx⟩

/-- Weak-symbol membership after folding a whole nm listing. -/
theorem foldl_lines_weaks_mem {lib : String} (lines : List String) (c : Classification)
    (n : String) :
    n ∈ (lines.foldl (classifyLine lib) c).weaks ↔
      n ∈ c.weaks ∨ ∃ line ∈ lines, ∃ a t, pySplitWs line = [a, t, n] ∧ pyLower t = "w" := by
  induction lines generalizing c with
  | nil => simp
  | cons L rest ih =>
    rw [List.foldl_cons, ih, classifyLine_weaks_mem]
    simp only [List.mem_cons]
    constructor
    · rintro ((hc | hL) | hr)
      · exact Or.inl hc
      · exact Or.inr ⟨L, Or.inl rfl, hL⟩
      · obtain ⟨l0, hl0, hx⟩ := hr
        exact Or.inr ⟨l0, Or.inr hl0, hx⟩
    · rintro (hc | ⟨l0, (rfl | hl0), hx⟩)
      · exact Or.inl (Or.inl hc)
      · exact Or.inl (Or.inr hx)
      · exact Or.inr ⟨l0, hl0, hx⟩

/-- Strong-function membership for a whole unit group: some lib of the group
has an nm line with three tokens, lowered type code `t`, and this name. -/
theorem GetLibFunctions_funcs_mem (nmEnv : String → String) (libs : List String) (n : String) :
    n ∈ (GetLibFunctions nmEnv libs).funcs ↔
      ∃ lib ∈ libs, ∃ line ∈ pySplitChar (nmEnv lib) '\n',
        ∃ a t, pySplitWs line = [a, t, n] ∧ pyLower t = "t" := by
  unfold GetLibFunctions
  have key : ∀ c0 : Classification, ∀ ls : List String,
      n ∈ (ls.foldl (classifyLib nmEnv) c0).funcs ↔
        n ∈ c0.funcs ∨ ∃ lib ∈ ls, ∃ line ∈ pySplitChar (nmEnv lib) '\n',
          ∃ a t, pySplitWs line = [a, t, n] ∧ pyLower t = "t" := by
    intro c0 ls
    induction ls generalizing c0 with
    | nil => simp
    | cons b rest ih =>
      rw [List.foldl_cons, ih]
      unfold classifyLib
      rw [foldl_lines_funcs_mem]
      simp only [List.mem_cons]
      constructor
      · rintro ((hc | hL) | hr)
        · exact Or.inl hc
        · exact Or.inr ⟨b, Or.inl rfl, hL⟩
        · obtain ⟨l0, hl0, hx⟩ := hr
          exact Or.inr ⟨l0, Or.inr hl0, hx⟩
      · rintro (hc | ⟨l0, (rfl | hl0), hx⟩)
        · exact Or.inl (Or.inl hc)
        · exact Or.inl (Or.inr hx)
        · exact Or.inr ⟨l0, hl0, hx⟩
  rw [key]
  simp

/-- Weak-symbol membership for a whole unit group. -/
theorem GetLibFunctions_weaks_mem (nmEnv : String → String) (libs : List String) (n : String) :
    n ∈ (GetLibFunctions nmEnv libs).weaks ↔
      ∃ lib ∈ libs, ∃ line ∈ pySplitChar (nmEnv lib) '\n',
        ∃ a t, pySplitWs line = [a, t, n] ∧ pyLower t = "w" := by
  unfold GetLibFunctions
  have key : ∀ c0 : Classification, ∀ ls : List String,
      n ∈ (ls.foldl (classifyLib nmEnv) c0).weaks ↔
        n ∈ c0.weaks ∨ ∃ lib ∈ ls, ∃ line ∈ pySplitChar (nmEnv lib) '\n',
          ∃ a t, pySplitWs line = [a, t, n] ∧ pyLower t = "w" := by
    intro c0 ls
    induction ls generalizing c0 with
    | nil => simp
    | cons b rest ih =>
      rw [List.foldl_cons, ih]
      unfold classifyLib
      rw [foldl_lines_weaks_mem]
      simp only [List.mem_cons]
      constructor
      · rintro ((hc | hL) | hr)
        · exact Or.inl hc
        · exact Or.inr ⟨b, Or.inl rfl, hL⟩
        · obtain ⟨l0, hl0, hx⟩ := hr
          exact Or.inr ⟨l0, Or.inr hl0, hx⟩
      · rintro (hc | ⟨l0, (rfl | hl0), hx⟩)
        · exact Or.inl (Or.inl hc)
        · exact Or.inl (Or.inr hx)
        · exact Or.inr ⟨l0, hl0, hx⟩
  rw [key]
  simp

/-- Every key of the global-data dictionary avoids the compiler-local `.L`
marker: `GetLibFunctions` routes `.L` data names to `local_data_names`. -/
theorem GetLibFunctions_datas_inv (nmEnv : String → String) (libs : List String) :
    ∀ k v, (k, v) ∈ (GetLibFunctions nmEnv libs).datas → pyStartswith k ".L" = false := by
  unfold GetLibFunctions
  refine foldl_inv (fun c => ∀ k v, (k, v) ∈ c.datas → pyStartswith k ".L" = false)
    (classifyLib nmEnv) libs _ ?_ ?_
  · intro k v hk
    simp at hk
  · intro c lib hc
    unfold classifyLib
    refine foldl_inv (fun c => ∀ k v, (k, v) ∈ c.datas → pyStartswith k ".L" = false)
      (classifyLine lib) (pySplitChar (nmEnv lib) '\n') c hc ?_
    intro c1 line hc1 k v hk
    rcases hsp : pySplitWs line with _ | ⟨x, _ | ⟨y, _ | ⟨z, _ | ⟨w, rest⟩⟩⟩⟩ <;>
        simp only [classifyLine, hsp] at hk
    · exact hc1 k v hk
    · exact hc1 k v hk
    · exact hc1 k v hk
    · split_ifs at hk with h1 h2 h3 h4
      · exact hc1 k v hk
      · exact hc1 k v hk
      · exact hc1 k v hk
      · rcases dictUpd_mem hk with h | rfl
        · exact hc1 k v h
        · rw [Bool.not_eq_true] at h4
          exact h4
      · exact hc1 k v hk
    · exact hc1 k v hk

/-- The strong-function total is the sum of the sizes of the table entries
whose name is in the strong-function set. -/
theorem libSizeLoop_funcTotal (c : Classification) (S : List (String × Int)) :
    (libSizeLoop c S).funcTotal =
      (S.map (fun e => if c.funcs.contains e.1 then e.2 else 0)).sum := by
  induction S with
  | nil => rfl
  | cons e rest ih =>
    obtain ⟨sym, size⟩ := e
    simp only [libSizeLoop, List.map_cons, List.sum_cons]
    split_ifs <;> simp_all <;> ring

/-- The weak total is the sum of the sizes of the table entries whose name is
in the weak set but not in the strong-function set. -/
theorem libSizeLoop_weakTotal (c : Classification) (S : List (String × Int)) :
    (libSizeLoop c S).weakTotal =
      (S.map (fun e => if c.funcs.contains e.1 then 0
        else if c.weaks.contains e.1 then e.2 else 0)).sum := by
  induction S with
  | nil => rfl
  | cons e rest ih =>
    obtain ⟨sym, size⟩ := e
    simp only [libSizeLoop, List.map_cons, List.sum_cons]
    split_ifs <;> simp_all <;> ring

/-- When no global-data key carries the `.L` marker, the local-data total is
the sum of the sizes of the `.rodata`/`.data`-prefixed entries whose stripped
base name carries the `.L` marker. -/
theorem libSizeLoop_localTotal (c : Classification)
    (hd : ∀ k v, (k, v) ∈ c.datas → pyStartswith k ".L" = false)
    (S : List (String × Int)) :
    (libSizeLoop c S).localTotal =
      (S.map (fun e =>
        if (pyStartswith e.1 ".rodata" || pyStartswith e.1 ".data") &&
            pyStartswith (pyStripPre (pyStripPre e.1 ".rodata.") ".data.") ".L"
          then e.2 else 0)).sum := by
  induction S with
  | nil => rfl
  | cons e rest ih =>
    obtain ⟨sym, size⟩ := e
    have key : dictHasKey c.datas (pyStripPre (pyStripPre sym ".rodata.") ".data.") = true →
        pyStartswith (pyStripPre (pyStripPre sym ".rodata.") ".data.") ".L" = false := by
      intro hk
      obtain ⟨v, hv⟩ := dictHasKey_iff.mp hk
      exact hd _ v hv
    simp only [libSizeLoop, List.map_cons, List.sum_cons]
    split_ifs <;> simp_all <;> ring

/-- The loop guard `startswith(".rodata") or startswith(".data")` combined
with the stripped name carrying `.L` is equivalent to requiring the dotted
section prefixes `.rodata.`/`.data.`: without a dotted prefix the stripping
is a no-op and the name itself would have to start with both a section
marker and `.L`, which is impossible. -/
theorem localCond_eq (s : String) :
    ((pyStartswith s ".rodata" || pyStartswith s ".data") &&
      pyStartswith (pyStripPre (pyStripPre s ".rodata.") ".data.") ".L")
    = ((pyStartswith s ".rodata." || pyStartswith s ".data.") &&
      pyStartswith (pyStripPre (pyStripPre s ".rodata.") ".data.") ".L") := by
  cases hro : pyStartswith s ".rodata."
  · cases hda : pyStartswith s ".data."
    · have h1 : pyStripPre s ".rodata." = s := pyStripPre_of_not_pre hro
      have h2 : pyStripPre s ".data." = s := pyStripPre_of_not_pre hda
      rw [h1, h2]
      cases hr : pyStartswith s ".rodata"
      · cases hd : pyStartswith s ".data"
        · simp [hr, hd, hro, hda]
        · have hL : pyStartswith s ".L" = false :=
            pyStartswith_clash (by decide) (by decide) hd
          simp [hr, hd, hro, hda, hL]
      · have hL : pyStartswith s ".L" = false :=
          pyStartswith_clash (by decide) (by decide) hr
        simp [hr, hro, hda, hL]
    · have hd : pyStartswith s ".data" = true := pyStartswith_of_pre (by decide) hda
      simp [hd, hda]
  · have hr : pyStartswith s ".rodata" = true := pyStartswith_of_pre (by decide) hro
    simp [hr, hro]

/-- A `.tdata`-prefixed table entry changes neither the data total nor the
local-data total of the `GetLibSize` loop. -/
theorem libSizeLoop_insert_tdata (c : Classification) {n : String} (s : Int)
    (h : pyStartswith n ".tdata" = true) (l1 l2 : List (String × Int)) :
    (libSizeLoop c (l1 ++ (n, s) :: l2)).dataTotal = (libSizeLoop c (l1 ++ l2)).dataTotal ∧
    (libSizeLoop c (l1 ++ (n, s) :: l2)).localTotal = (libSizeLoop c (l1 ++ l2)).localTotal := by
  have hro : pyStartswith n ".rodata" = false := pyStartswith_clash (by decide) (by decide) h
  have hda : pyStartswith n ".data" = false := pyStartswith_clash (by decide) (by decide) h
  induction l1 with
  | nil =>
    simp only [List.nil_append, libSizeLoop, hro, hda, Bool.or_self, Bool.false_or,
      Bool.or_false, if_false]
    split_ifs <;> simp_all
  | cons a l1 ih =>
    obtain ⟨sym, size⟩ := a
    simp only [List.cons_append, libSizeLoop]
    split_ifs <;> simp_all

/-- A `.tdata`-prefixed table entry is counted by `GetDataSize` into both the
data-symbol count and the data size. -/
theorem GetDataSize_insert_tdata {n : String} (s : Int) (h : pyStartswith n ".tdata" = true)
    (l1 l2 : List (String × Int)) :
    (GetDataSize (l1 ++ (n, s) :: l2)).2.1 = (GetDataSize (l1 ++ l2)).2.1 + 1 ∧
    (GetDataSize (l1 ++ (n, s) :: l2)).2.2 = (GetDataSize (l1 ++ l2)).2.2 + s := by
  have hne1 : (n == ".data") = false := by
    cases hb : n == ".data"
    · rfl
    · exfalso; rw [eq_of_beq hb] at h; exact absurd h (by decide)
  have hne2 : (n == ".rodata") = false := by
    cases hb : n == ".rodata"
    · rfl
    · exfalso; rw [eq_of_beq hb] at h; exact absurd h (by decide)
  induction l1 with
  | nil => simp [GetDataSize, hne1, hne2, h]
  | cons a l1 ih =>
    obtain ⟨nm, sz⟩ := a
    simp only [List.cons_append, GetDataSize]
    split_ifs <;> simp_all <;> omega

/-- A skipped line leaves the whole `GetSymSizes` fold unchanged, from any
intermediate state. -/
theorem foldlM_symStep_skip {s : String} (h : skipLine s = true) (l1 l2 : List String)
    (acc : List (String × Int) × Int) :
    (l1 ++ s :: l2).foldlM symStep acc = (l1 ++ l2).foldlM symStep acc := by
  induction l1 generalizing acc with
  | nil =>
    have hs : symStep acc s = Except.ok acc := by
      unfold symStep; rw [if_pos h]
    rw [List.nil_append, List.nil_append, List.foldlM_cons, hs]
    rfl
  | cons a l1 ih =>
    simp only [List.cons_append, List.foldlM_cons]
    cases ha : symStep acc a with
    | error e => rfl
    | ok acc2 => exact ih acc2

/-- A non-skipped line with the wrong comma-column count makes the whole
`GetSymSizes` fold raise, from any intermediate state. -/
theorem foldlM_symStep_err {s : String} (hskip : skipLine s = false)
    (hcols : (pySplitChar s ',').length ≠ 3) (l1 l2 : List String)
    (acc : List (String × Int) × Int) :
    ∃ e, (l1 ++ s :: l2).foldlM symStep acc = Except.error e := by
  have hs : ∀ acc0 : List (String × Int) × Int, symStep acc0 s = Except.error Err.valueError := by
    intro acc0
    unfold symStep
    rw [if_neg (by rw [hskip]; exact Bool.false_ne_true)]
    split
    · next name vm fs heq => exfalso; apply hcols; rw [heq]; rfl
    · rfl
  induction l1 generalizing acc with
  | nil =>
    refine ⟨Err.valueError, ?_⟩
    rw [List.nil_append, List.foldlM_cons, hs acc]
    rfl
  | cons a l1 ih =>
    simp only [List.cons_append, List.foldlM_cons]
    cases ha : symStep acc a with
    | error e => exact ⟨e, rfl⟩
    | ok acc2 => exact ih acc2

/-- Stable descending insertion is a permutation of consing. -/
theorem insertDesc_perm (key : LibSize → Int) (x : LibSize) (l : List LibSize) :
    (insertDesc key x l).Perm (x :: l) := by
  induction l with
  | nil => exact List.Perm.refl _
  | cons y ys ih =>
    unfold insertDesc
    split_ifs
    · exact List.Perm.refl _
    · exact (ih.cons y).trans (List.Perm.swap x y ys)

/-- The modelled Python sort permutes its input. -/
theorem sortDesc_perm (key : LibSize → Int) (l : List LibSize) :
    (sortDesc key l).Perm l := by
  induction l with
  | nil => exact List.Perm.refl _
  | cons x xs ih =>
    exact (insertDesc_perm key x (sortDesc key xs)).trans (ih.cons x)

/-- Division by a nonzero denominator succeeds with the exact pair. -/
theorem pyDivFloat_ok {b : Int} (h : b ≠ 0) (a : Int) :
    pyDivFloat a b = Except.ok { num := a, den := b } := by
  unfold pyDivFloat
  rw [if_neg]
  simp [h]

/-- `Percent` succeeds against a nonzero total. -/
theorem Percent_ok {linked : Int} (h : linked ≠ 0) (s : Int) :
    Percent linked s = Except.ok { num := s * 100, den := linked } := by
  unfold Percent
  rw [pyDivFloat_ok h]
  rfl

/-- With a nonzero total the function table raises nothing and emits only
function rows. -/
theorem funcRows_ok {linked : Int} (h : linked ≠ 0) (L : List LibSize) :
    (funcRows linked L).2 = none ∧
      ∀ o ∈ (funcRows linked L).1, ∃ nm f p1 cs p2, o = OutLine.funcRow nm f p1 cs p2 := by
  induction L with
  | nil => exact ⟨rfl, by intro o ho; simp [funcRows] at ho⟩
  | cons l rest ih =>
    simp only [funcRows, Percent_ok h]
    refine ⟨ih.1, ?_⟩
    intro o ho
    rcases List.mem_cons.mp ho with rfl | ho
    · exact ⟨_, _, _, _, _, rfl⟩
    · exact ih.2 o ho

/-- With a nonzero data total the data table raises nothing and emits only
data rows. -/
theorem dataRows_ok {dsize : Int} (h : dsize ≠ 0) (L : List LibSize) :
    (dataRows dsize L).2 = none ∧
      ∀ o ∈ (dataRows dsize L).1, ∃ nm d p, o = OutLine.dataRow nm d p := by
  induction L with
  | nil => exact ⟨rfl, by intro o ho; simp [dataRows] at ho⟩
  | cons l rest ih =>
    simp only [dataRows, pyDivFloat_ok h]
    refine ⟨ih.1, ?_⟩
    intro o ho
    rcases List.mem_cons.mp ho with rfl | ho
    · exact ⟨_, _, _, rfl⟩
    · exact ih.2 o ho

/-- Every event emitted by `GetDataSize` is a merged-section warning. -/
theorem GetDataSize_events (S : List (String × Int)) :
    ∀ o ∈ (GetDataSize S).1, ∃ nm s, o = OutLine.mergedSectionWarning nm s := by
  induction S with
  | nil => simp [GetDataSize]
  | cons e rest ih =>
    obtain ⟨nm, sz⟩ := e
    simp only [GetDataSize]
    split_ifs
    · intro o ho
      rcases List.mem_cons.mp ho with rfl | ho
      · exact ⟨_, _, rfl⟩
      · exact ih o ho
    · exact ih
    · exact ih

/-- A predicate false on every element of a list counts zero elements. -/
theorem countP_zero_of_all {p : OutLine → Bool} {l : List OutLine}
    (h : ∀ o ∈ l, p o = false) : l.countP p = 0 := by
  rw [List.countP_eq_zero]
  intro a ha
  simp [h a ha]

/-- C2: for every unit group and symbol table, the aggregation adds each
table entry's size to the strong-function total when its name is in the
group's strong-function set, otherwise to the weak total when it is in the
weak set; an entry whose name is in both sets is counted into the
strong-function total only, never into both. -/
theorem C2_strong_priority (nmEnv : String → String) (libs : List String)
    (S : List (String × Int)) :
    (GetLibSize nmEnv libs S).function =
      (S.map (fun e => if (GetLibFunctions nmEnv libs).funcs.contains e.1 then e.2 else 0)).sum ∧
    (GetLibSize nmEnv libs S).weak =
      (S.map (fun e => if (GetLibFunctions nmEnv libs).funcs.contains e.1 then 0
        else if (GetLibFunctions nmEnv libs).weaks.contains e.1 then e.2 else 0)).sum :=
  ⟨libSizeLoop_funcTotal (GetLibFunctions nmEnv libs) S,
   libSizeLoop_weakTotal (GetLibFunctions nmEnv libs) S⟩

/-- C3 counterexample: a unit whose nm dump lists `foo` with type code `T`
and then with type code `W` ends with `foo` in both the strong-function set
and the weak set, so the sets are not disjoint and no first-classification
rule exists. -/
theorem C3_disjoint_counterexample :
    "foo" ∈ (GetLibFunctions (fun _ => "00 T foo\n00 W foo") ["a.o"]).funcs ∧
    "foo" ∈ (GetLibFunctions (fun _ => "00 T foo\n00 W foo") ["a.o"]).weaks := by
  decide

/-- C3 amended: membership in the strong-function set is exactly "some lib of
the group has a three-token nm line with lowered code `t` and this name", and
likewise for the weak set with code `w`.  Every occurrence classifies
independently of earlier ones, so a name listed with both codes lands in both
sets; nothing is ever overwritten or skipped. -/
theorem C3_classification_amended (nmEnv : String → String) (libs : List String) (n : String) :
    (n ∈ (GetLibFunctions nmEnv libs).funcs ↔
      ∃ lib ∈ libs, ∃ line ∈ pySplitChar (nmEnv lib) '\n',
        ∃ a t, pySplitWs line = [a, t, n] ∧ pyLower t = "t") ∧
    (n ∈ (GetLibFunctions nmEnv libs).weaks ↔
      ∃ lib ∈ libs, ∃ line ∈ pySplitChar (nmEnv lib) '\n',
        ∃ a t, pySplitWs line = [a, t, n] ∧ pyLower t = "w") :=
  ⟨GetLibFunctions_funcs_mem nmEnv libs n, GetLibFunctions_weaks_mem nmEnv libs n⟩

/-- C9: the local-data total of `GetLibSize` is independent of the unit
group: for any two groups it is the same, namely the sum of the sizes of the
table entries whose name starts with `.rodata.` or `.data.` and whose
prefix-stripped base name starts with `.L`. -/
theorem C9_local_data_independent (nmEnv : String → String) (libs1 libs2 : List String)
    (S : List (String × Int)) :
    (GetLibSize nmEnv libs1 S).localData = (GetLibSize nmEnv libs2 S).localData ∧
    (GetLibSize nmEnv libs1 S).localData =
      (S.map (fun e =>
        if (pyStartswith e.1 ".rodata." || pyStartswith e.1 ".data.") &&
            pyStartswith (pyStripPre (pyStripPre e.1 ".rodata.") ".data.") ".L"
          then e.2 else 0)).sum := by
  have key : ∀ libs : List String, (GetLibSize nmEnv libs S).localData =
      (S.map (fun e =>
        if (pyStartswith e.1 ".rodata." || pyStartswith e.1 ".data.") &&
            pyStartswith (pyStripPre (pyStripPre e.1 ".rodata.") ".data.") ".L"
          then e.2 else 0)).sum := by
    intro libs
    have hd := GetLibFunctions_datas_inv nmEnv libs
    have hchar := libSizeLoop_localTotal (GetLibFunctions nmEnv libs) hd S
    have hfun : (fun (e : String × Int) =>
        if (pyStartswith e.1 ".rodata" || pyStartswith e.1 ".data") &&
            pyStartswith (pyStripPre (pyStripPre e.1 ".rodata.") ".data.") ".L"
          then e.2 else 0) =
        (fun (e : String × Int) =>
        if (pyStartswith e.1 ".rodata." || pyStartswith e.1 ".data.") &&
            pyStartswith (pyStripPre (pyStripPre e.1 ".rodata.") ".data.") ".L"
          then e.2 else 0) := by
      funext e
      rw [localCond_eq]
    rw [hfun] at hchar
    exact hchar
  exact ⟨(key libs1).trans (key libs2).symm, key libs1⟩

/-- C10: a `.tdata`-prefixed symbol is counted into the data-symbol count and
the data-size denominator by `GetDataSize`, but the per-group aggregation
adds its size neither to any group's data total nor to the local-data total,
so thread-local data is unattributable to every group. -/
theorem C10_tdata_unattributable (nmEnv : String → String) (libs : List String)
    (l1 l2 : List (String × Int)) (n : String) (s : Int)
    (h : pyStartswith n ".tdata" = true) :
    (GetDataSize (l1 ++ (n, s) :: l2)).2.1 = (GetDataSize (l1 ++ l2)).2.1 + 1 ∧
    (GetDataSize (l1 ++ (n, s) :: l2)).2.2 = (GetDataSize (l1 ++ l2)).2.2 + s ∧
    (GetLibSize nmEnv libs (l1 ++ (n, s) :: l2)).data = (GetLibSize nmEnv libs (l1 ++ l2)).data ∧
    (GetLibSize nmEnv libs (l1 ++ (n, s) :: l2)).localData =
      (GetLibSize nmEnv libs (l1 ++ l2)).localData := by
  obtain ⟨hc, hs⟩ := GetDataSize_insert_tdata s h l1 l2
  obtain ⟨hdt, hlt⟩ := libSizeLoop_insert_tdata (GetLibFunctions nmEnv libs) s h l1 l2
  exact ⟨hc, hs, hdt, hlt⟩

/-- C10 witness at the entry `.tdata.x` of size 7 with an empty unit group. -/
theorem C10_tdata_unattributable_witness :
    pyStartswith ".tdata.x" ".tdata" = true ∧
    ((GetDataSize ([] ++ (".tdata.x", (7 : Int)) :: [])).2.1 =
        (GetDataSize ([] ++ [])).2.1 + 1 ∧
      (GetDataSize ([] ++ (".tdata.x", (7 : Int)) :: [])).2.2 =
        (GetDataSize ([] ++ [])).2.2 + 7 ∧
      (GetLibSize (fun _ => "") [] ([] ++ (".tdata.x", (7 : Int)) :: [])).data =
        (GetLibSize (fun _ => "") [] ([] ++ [])).data ∧
      (GetLibSize (fun _ => "") [] ([] ++ (".tdata.x", (7 : Int)) :: [])).localData =
        (GetLibSize (fun _ => "") [] ([] ++ [])).localData) :=
  ⟨by decide, C10_tdata_unattributable (fun _ => "") [] [] [] ".tdata.x" 7 (by decide)⟩

/-- C6: a size-report line that begins with the bracketed section marker,
begins with the WASM-header marker, or ends with the column-header token is
skipped: it contributes neither a dictionary entry nor any bytes to the
totals, leaving the whole result of the loader unchanged. -/
theorem C6_marker_rows_skipped {s : String}
    (h : pyStartswith s "[section" = true ∨ pyStartswith s "[WASM Header" = true ∨
      pyEndswith s "filesize" = true)
    (l1 l2 : List String) :
    GetSymSizesLines (l1 ++ s :: l2) = GetSymSizesLines (l1 ++ l2) := by
  have hs : skipLine s = true := by
    unfold skipLine
    rcases h with h | h | h <;> simp [h]
  exact foldlM_symStep_skip hs l1 l2 ([], 0)

/-- C6 witness: the row `[section .text],12345,` is skipped between two
ordinary rows. -/
theorem C6_marker_rows_skipped_witness :
    (pyStartswith "[section .text],12345," "[section" = true ∨
      pyStartswith "[section .text],12345," "[WASM Header" = true ∨
      pyEndswith "[section .text],12345," "filesize" = true) ∧
    GetSymSizesLines (["a,1,2"] ++ "[section .text],12345," :: ["b,3,4"]) =
      GetSymSizesLines (["a,1,2"] ++ ["b,3,4"]) :=
  ⟨Or.inl (by decide),
   C6_marker_rows_skipped (Or.inl (by decide)) ["a,1,2"] ["b,3,4"]⟩

/-- C7: a non-skipped size-report line whose comma-separated column count is
not three makes the loader raise, and `main` propagates the exception with no
output produced at all. -/
theorem C7_malformed_row_fatal {s : String} (hskip : skipLine s = false)
    (hcols : (pySplitChar s ',').length ≠ 3)
    (bloatyEnv nmEnv : String → String) (args : List String) (wasm : String)
    (l1 l2 : List String)
    (hw : args.getLast? = some wasm)
    (hb : pySplitChar (bloatyEnv wasm) '\n' = l1 ++ s :: l2) :
    ∃ e, GetSymSizesLines (l1 ++ s :: l2) = Except.error e ∧
      mainRun bloatyEnv nmEnv args = ([], some e) := by
  obtain ⟨e, he⟩ := foldlM_symStep_err hskip hcols l1 l2 ([], 0)
  refine ⟨e, he, ?_⟩
  unfold mainRun
  rw [hw]
  show (match GetSymSizesLines (pySplitChar (bloatyEnv wasm) '\n') with
      | Except.error e => (([] : List OutLine), some e)
      | Except.ok st => mainAfterLoad nmEnv wasm args.dropLast st.1 st.2) = ([], some e)
  rw [hb]
  rw [show GetSymSizesLines (l1 ++ s :: l2) = Except.error e from he]

/-- C7 witness: the two-column row `a,b` as the whole size report. -/
theorem C7_malformed_row_fatal_witness :
    skipLine "a,b" = false ∧ (pySplitChar "a,b" ',').length ≠ 3 ∧
    (∃ e, GetSymSizesLines ([] ++ "a,b" :: []) = Except.error e ∧
      mainRun (fun _ => "a,b") (fun _ => "") ["out.wasm"] = ([], some e)) :=
  ⟨by decide, by decide,
   C7_malformed_row_fatal (by decide) (by decide) (fun _ => "a,b") (fun _ => "")
     ["out.wasm"] "out.wasm" [] [] (by decide) (by decide)⟩

/-- C5: with an empty linked-artifact symbol table the run crashes: after the
symbol-count line, the data-count line and the function-table header, the
first percentage divides by the zero total and the `ZeroDivisionError`
escapes.  The claim that the run must not raise a division by zero is right
about the intent and wrong about the code. -/
theorem C5_empty_table_crashes :
    mainRun (fun _ => "") (fun _ => "") ["lib.o", "out.wasm"] =
      ([OutLine.symCount 0 "out.wasm" 0, OutLine.dataCount 0 0, OutLine.funcHeader],
        some Err.zeroDivisionError) := by
  decide

/-- C1 counterexample: on Scenario B's input (symbol table `qux ↦ 10`, two
units each weakly defining `qux`) the tool does not emit the disagreement
warning: the run aborts with a `ZeroDivisionError` in the data table. -/
theorem C1_scenario_b_counterexample :
    (mainRun (fun _ => "qux,1,10") (fun _ => "00 W qux") ["a.o", "b.o", "out.wasm"]).1.countP
      OutLine.isStrongSumWarning = 0 ∧
    (mainRun (fun _ => "qux,1,10") (fun _ => "00 W qux") ["a.o", "b.o", "out.wasm"]).2 =
      some Err.zeroDivisionError := by
  decide

/-- C1 amended: each per-unit row has weak total 10 and the aggregate row has
weak total 10, not 20; but no disagreement warning is emitted on this input —
the warning only compares strong-function totals, which agree (0 + 0 = 0),
and the run in fact aborts with a `ZeroDivisionError` in the data table
because the input has no data symbols. -/
theorem C1_scenario_b_amended :
    (GetLibSize (fun _ => "00 W qux") ["a.o"] [("qux", 10)]).weak = 10 ∧
    (GetLibSize (fun _ => "00 W qux") ["b.o"] [("qux", 10)]).weak = 10 ∧
    (GetLibSize (fun _ => "00 W qux") ["a.o", "b.o"] [("qux", 10)]).weak = 10 ∧
    (GetLibSize (fun _ => "00 W qux") ["a.o"] [("qux", 10)]).function +
        (GetLibSize (fun _ => "00 W qux") ["b.o"] [("qux", 10)]).function =
      (GetLibSize (fun _ => "00 W qux") ["a.o", "b.o"] [("qux", 10)]).function ∧
    (mainRun (fun _ => "qux,1,10") (fun _ => "00 W qux") ["a.o", "b.o", "out.wasm"]).1.countP
      OutLine.isStrongSumWarning = 0 ∧
    (mainRun (fun _ => "qux,1,10") (fun _ => "00 W qux") ["a.o", "b.o", "out.wasm"]).2 =
      some Err.zeroDivisionError := by
  decide

/-- With no libs the strong-function total of the empty group is zero. -/
theorem GetLibSize_nil_function (nmEnv : String → String) (S : List (String × Int)) :
    (GetLibSize nmEnv [] S).function = 0 := by
  have key : ∀ S0 : List (String × Int),
      (libSizeLoop (GetLibFunctions nmEnv []) S0).funcTotal = 0 := by
    intro S0
    rw [libSizeLoop_funcTotal]
    induction S0 with
    | nil => rfl
    | cons e rest ih =>
      simp only [List.map_cons, List.sum_cons, ih]
      rfl
  exact key S

/-- Invoked with no libs at all, the tail of `main` always raises: either a
percentage hits a zero denominator or `sizes[0]` raises `IndexError` on the
empty per-lib list. -/
theorem mainAfterLoad_no_libs (nmEnv : String → String) (wasm : String)
    (symSizes : List (String × Int)) (totalSize : Int) :
    (mainAfterLoad nmEnv wasm [] symSizes totalSize).2.isSome = true := by
  by_cases hl : (symSizes.map (fun e => e.2)).sum = 0 <;>
    by_cases hd : (GetDataSize symSizes).2.2 = 0 <;>
      simp [mainAfterLoad, seqOut, sortDesc, funcRows, dataRows, Percent, pyDivFloat,
        Except.map, GetLibSize_nil_function, hl, hd]

/-- C8 amended: the script never checks its argument count.  With zero
positional arguments `args[-1]` raises `IndexError` before any output; with
exactly one argument the run proceeds — producing output — and always aborts
with an uncaught exception later, because with no libs either a percentage
divides by zero or `sizes[0]` raises `IndexError`.  No usage message exists
in the program. -/
theorem C8_too_few_args_amended (bloatyEnv nmEnv : String → String) (a : String) :
    mainRun bloatyEnv nmEnv [] = ([], some Err.indexError) ∧
    (mainRun bloatyEnv nmEnv [a]).2.isSome = true := by
  refine ⟨rfl, ?_⟩
  have h1 : mainRun bloatyEnv nmEnv [a] =
      match GetSymSizesLines (pySplitChar (bloatyEnv a) '\n') with
      | Except.error e => (([] : List OutLine), some e)
      | Except.ok st => mainAfterLoad nmEnv a [] st.1 st.2 := rfl
  rw [h1]
  cases GetSymSizesLines (pySplitChar (bloatyEnv a) '\n') with
  | error e => rfl
  | ok st => exact mainAfterLoad_no_libs nmEnv a st.1 st.2

/-- C8 counterexample: with a single argument (fewer than the required two)
the run is not a clean usage error: it produces partial output — the symbol
count, the data count, both table headers and two summary lines — before
dying of a `ZeroDivisionError`. -/
theorem C8_partial_output_counterexample :
    (mainRun (fun _ => "foo,1,100") (fun _ => "") ["out.wasm"]).1 ≠ [] ∧
    (mainRun (fun _ => "foo,1,100") (fun _ => "") ["out.wasm"]).2 =
      some Err.zeroDivisionError := by
  decide

/-- C4 counterexample: two units both strongly define `foo` (size 10), so the
per-unit strong sum (20) differs from the deduplicated total (10); yet no
warning is emitted and the run does not continue normally — it aborts with a
`ZeroDivisionError` in the data table before reaching the warning check,
because the input has no data symbols. -/
theorem C4_warning_counterexample :
    ((["a.o", "b.o"] : List String).map
        (fun l => (GetLibSize (fun _ => "00 T foo") [l] [("foo", 10)]).function)).sum ≠
      (GetLibSize (fun _ => "00 T foo") ["a.o", "b.o"] [("foo", 10)]).function ∧
    (mainRun (fun _ => "foo,1,10") (fun _ => "00 T foo") ["a.o", "b.o", "out.wasm"]).1.countP
      OutLine.isStrongSumWarning = 0 ∧
    (mainRun (fun _ => "foo,1,10") (fun _ => "00 T foo") ["a.o", "b.o", "out.wasm"]).2 =
      some Err.zeroDivisionError := by
  decide

/-- C4 amended: when the tail of `main` runs on at least one unit, a nonzero
linked total and a nonzero data total (so that no earlier table crashes), it
raises nothing, emits the strong-sum disagreement warning exactly when the
sum of the per-unit strong-function totals differs from the deduplicated
aggregate total, and always produces all four summary lines. -/
theorem C4_strong_sum_warning_amended (nmEnv : String → String) (wasm : String)
    (libs : List String) (symSizes : List (String × Int)) (totalSize : Int)
    (h1 : libs ≠ [])
    (h2 : (symSizes.map (fun e => e.2)).sum ≠ 0)
    (h3 : (GetDataSize symSizes).2.2 ≠ 0) :
    (mainAfterLoad nmEnv wasm libs symSizes totalSize).2 = none ∧
    (mainAfterLoad nmEnv wasm libs symSizes totalSize).1.countP OutLine.isStrongSumWarning =
      (if (libs.map (fun l => (GetLibSize nmEnv [l] symSizes).function)).sum =
          (GetLibSize nmEnv libs symSizes).function then 0 else 1) ∧
    (mainAfterLoad nmEnv wasm libs symSizes totalSize).1.countP OutLine.isStrongTotal = 1 ∧
    (mainAfterLoad nmEnv wasm libs symSizes totalSize).1.countP OutLine.isStrongWeakTotal = 1 ∧
    (mainAfterLoad nmEnv wasm libs symSizes totalSize).1.countP OutLine.isPublicDataTotal = 1 ∧
    (mainAfterLoad nmEnv wasm libs symSizes totalSize).1.countP OutLine.isLocalDataTotal = 1 := by
  obtain ⟨fe, fall⟩ := funcRows_ok h2
    (sortDesc (fun l => l.function + l.weak) (libs.map (fun l => GetLibSize nmEnv [l] symSizes)))
  rcases hfr : funcRows ((symSizes.map (fun e => e.2)).sum)
      (sortDesc (fun l => l.function + l.weak)
        (libs.map (fun l => GetLibSize nmEnv [l] symSizes))) with ⟨fr, fe2⟩
  rw [hfr] at fe fall
  have fe' : fe2 = none := fe
  subst fe'
  have fall' : ∀ o ∈ fr, ∃ nm f p1 cs p2, o = OutLine.funcRow nm f p1 cs p2 := fall
  obtain ⟨de, dall⟩ := dataRows_ok h3
    (sortDesc (fun l => l.data) (sortDesc (fun l => l.function + l.weak)
      (libs.map (fun l => GetLibSize nmEnv [l] symSizes))))
  rcases hdr : dataRows ((GetDataSize symSizes).2.2)
      (sortDesc (fun l => l.data) (sortDesc (fun l => l.function + l.weak)
        (libs.map (fun l => GetLibSize nmEnv [l] symSizes)))) with ⟨dr, de2⟩
  rw [hdr] at de dall
  have de' : de2 = none := de
  subst de'
  have dall' : ∀ o ∈ dr, ∃ nm d p, o = OutLine.dataRow nm d p := dall
  have hlenD : (sortDesc (fun l => l.data) (sortDesc (fun l => l.function + l.weak)
      (libs.map (fun l => GetLibSize nmEnv [l] symSizes)))).length = libs.length := by
    rw [(sortDesc_perm _ _).length_eq, (sortDesc_perm _ _).length_eq, List.length_map]
  obtain ⟨s0, rest0, hs0⟩ : ∃ s0 rest0,
      sortDesc (fun l => l.data) (sortDesc (fun l => l.function + l.weak)
        (libs.map (fun l => GetLibSize nmEnv [l] symSizes))) = s0 :: rest0 := by
    cases hsd : sortDesc (fun l => l.data) (sortDesc (fun l => l.function + l.weak)
        (libs.map (fun l => GetLibSize nmEnv [l] symSizes))) with
    | nil =>
      exfalso
      rw [hsd] at hlenD
      exact h1 (List.length_eq_zero.mp hlenD.symm)
    | cons s0 rest0 => exact ⟨s0, rest0, rfl⟩
  have hhead : (sortDesc (fun l => l.data) (sortDesc (fun l => l.function + l.weak)
      (libs.map (fun l => GetLibSize nmEnv [l] symSizes)))).head? = some s0 := by
    rw [hs0]; rfl
  have hsum : ((sortDesc (fun l => l.data) (sortDesc (fun l => l.function + l.weak)
      (libs.map (fun l => GetLibSize nmEnv [l] symSizes)))).map (fun l => l.function)).sum =
      (libs.map (fun l => (GetLibSize nmEnv [l] symSizes).function)).sum := by
    have p1 := (sortDesc_perm (fun l => l.data) (sortDesc (fun l => l.function + l.weak)
      (libs.map (fun l => GetLibSize nmEnv [l] symSizes)))).trans
      (sortDesc_perm (fun l => l.function + l.weak)
        (libs.map (fun l => GetLibSize nmEnv [l] symSizes)))
    have p2 := p1.map (fun l : LibSize => l.function)
    rw [p2.sum_eq, List.map_map]
    rfl
  have hgd0 : ∀ p : OutLine → Bool,
      (∀ nm sz, p (OutLine.mergedSectionWarning nm sz) = false) →
      (GetDataSize symSizes).1.countP p = 0 := by
    intro p hp
    refine countP_zero_of_all ?_
    intro o ho
    obtain ⟨nm, sz, rfl⟩ := GetDataSize_events symSizes o ho
    exact hp nm sz
  have hfr0 : ∀ p : OutLine → Bool,
      (∀ a1 b1 c1 d1 e1, p (OutLine.funcRow a1 b1 c1 d1 e1) = false) →
      fr.countP p = 0 := by
    intro p hp
    refine countP_zero_of_all ?_
    intro o ho
    obtain ⟨a1, b1, c1, d1, e1, rfl⟩ := fall' o ho
    exact hp a1 b1 c1 d1 e1
  have hdr0 : ∀ p : OutLine → Bool,
      (∀ a1 b1 c1, p (OutLine.dataRow a1 b1 c1) = false) →
      dr.countP p = 0 := by
    intro p hp
    refine countP_zero_of_all ?_
    intro o ho
    obtain ⟨a1, b1, c1, rfl⟩ := dall' o ho
    exact hp a1 b1 c1
  have g1 := hgd0 OutLine.isStrongSumWarning (fun _ _ => rfl)
  have g2 := hgd0 OutLine.isStrongTotal (fun _ _ => rfl)
  have g3 := hgd0 OutLine.isStrongWeakTotal (fun _ _ => rfl)
  have g4 := hgd0 OutLine.isPublicDataTotal (fun _ _ => rfl)
  have g5 := hgd0 OutLine.isLocalDataTotal (fun _ _ => rfl)
  have f1 := hfr0 OutLine.isStrongSumWarning (fun _ _ _ _ _ => rfl)
  have f2 := hfr0 OutLine.isStrongTotal (fun _ _ _ _ _ => rfl)
  have f3 := hfr0 OutLine.isStrongWeakTotal (fun _ _ _ _ _ => rfl)
  have f4 := hfr0 OutLine.isPublicDataTotal (fun _ _ _ _ _ => rfl)
  have f5 := hfr0 OutLine.isLocalDataTotal (fun _ _ _ _ _ => rfl)
  have d1 := hdr0 OutLine.isStrongSumWarning (fun _ _ _ => rfl)
  have d2 := hdr0 OutLine.isStrongTotal (fun _ _ _ => rfl)
  have d3 := hdr0 OutLine.isStrongWeakTotal (fun _ _ _ => rfl)
  have d4 := hdr0 OutLine.isPublicDataTotal (fun _ _ _ => rfl)
  have d5 := hdr0 OutLine.isLocalDataTotal (fun _ _ _ => rfl)
  simp only [mainAfterLoad, hfr, hdr, hhead, Percent_ok h2, pyDivFloat_ok h3, seqOut]
  rw [hsum]
  by_cases hv : (libs.map (fun l => (GetLibSize nmEnv [l] symSizes).function)).sum =
      (GetLibSize nmEnv libs symSizes).function
  · simp [hv, List.countP_append, List.countP_cons, OutLine.isStrongSumWarning,
      OutLine.isStrongTotal, OutLine.isStrongWeakTotal, OutLine.isPublicDataTotal,
      OutLine.isLocalDataTotal, g1, g2, g3, g4, g5, f1, f2, f3, f4, f5, d1, d2, d3, d4, d5]
  · have hbne : ((libs.map (fun l => (GetLibSize nmEnv [l] symSizes).function)).sum !=
        (GetLibSize nmEnv libs symSizes).function) = true := bne_iff_ne.mpr hv
    simp [hv, hbne, List.countP_append, List.countP_cons, OutLine.isStrongSumWarning,
      OutLine.isStrongTotal, OutLine.isStrongWeakTotal, OutLine.isPublicDataTotal,
      OutLine.isLocalDataTotal, g1, g2, g3, g4, g5, f1, f2, f3, f4, f5, d1, d2, d3, d4, d5]

/-- C4 witness: two units both strongly defining `foo` against a table with
`foo` and one data symbol; all hypotheses hold, the warning fires once and
all summary lines appear. -/
theorem C4_strong_sum_warning_amended_witness :
    ((["a.o", "b.o"] : List String) ≠ [] ∧
      (([("foo", (10 : Int)), (".data.g", 5)].map (fun e => e.2)).sum ≠ 0) ∧
      (GetDataSize [("foo", (10 : Int)), (".data.g", 5)]).2.2 ≠ 0) ∧
    ((mainAfterLoad (fun _ => "00 T foo") "out.wasm" ["a.o", "b.o"]
        [("foo", (10 : Int)), (".data.g", 5)] 15).2 = none ∧
      (mainAfterLoad (fun _ => "00 T foo") "out.wasm" ["a.o", "b.o"]
          [("foo", (10 : Int)), (".data.g", 5)] 15).1.countP OutLine.isStrongSumWarning =
        (if ((["a.o", "b.o"] : List String).map
            (fun l => (GetLibSize (fun _ => "00 T foo") [l]
              [("foo", (10 : Int)), (".data.g", 5)]).function)).sum =
            (GetLibSize (fun _ => "00 T foo") ["a.o", "b.o"]
              [("foo", (10 : Int)), (".data.g", 5)]).function then 0 else 1) ∧
      (mainAfterLoad (fun _ => "00 T foo") "out.wasm" ["a.o", "b.o"]
          [("foo", (10 : Int)), (".data.g", 5)] 15).1.countP OutLine.isStrongTotal = 1 ∧
      (mainAfterLoad (fun _ => "00 T foo") "out.wasm" ["a.o", "b.o"]
          [("foo", (10 : Int)), (".data.g", 5)] 15).1.countP OutLine.isStrongWeakTotal = 1 ∧
      (mainAfterLoad (fun _ => "00 T foo") "out.wasm" ["a.o", "b.o"]
          [("foo", (10 : Int)), (".data.g", 5)] 15).1.countP OutLine.isPublicDataTotal = 1 ∧
      (mainAfterLoad (fun _ => "00 T foo") "out.wasm" ["a.o", "b.o"]
          [("foo", (10 : Int)), (".data.g", 5)] 15).1.countP OutLine.isLocalDataTotal = 1) :=
  ⟨⟨by decide, by decide, by decide⟩,
   C4_strong_sum_warning_amended (fun _ => "00 T foo") "out.wasm" ["a.o", "b.o"]
     [("foo", (10 : Int)), (".data.g", 5)] 15 (by decide) (by decide) (by decide)⟩
